import Mathlib

/-!
Verification development for the Task Prioritizer application.

The embedding follows the source of `src/App.jsx` (query pipeline: `filtered`,
`sorted`, `stats`; operations: `upsertTask`, `toggleDone`, `importJSON`,
`exportJSON`) and the cloud helpers of `hooks/useTasks` (`createTask`,
`updateTask`, `deleteTaskCloud`).

Modelling conventions:
- JavaScript strings are Lean `String`s; optional / possibly-`undefined` string
  fields are `Option String`.  JavaScript truthiness of such a field is
  `truthy`: `undefined`/absent and the empty string are falsy.
- `Array.prototype.sort(cmp)` is modelled by `List.mergeSort` with the boolean
  relation `sortLe a b := SortCompare(cmp a b) ≤ 0`.  ECMAScript requires sort
  to be stable and, for a consistent comparator, sorted with respect to
  `SortCompare`, which maps a `NaN` comparator result to `+0`; `mergeSort` is
  exactly such a stable sort.
- The comparator arithmetic over JavaScript numbers (`Infinity` for missing due
  dates, `Infinity - Infinity = NaN`, ...) is modelled by `JSNum`.
- `new Date(s).getTime()` is modelled by a parameter `dateVal : String → Int`,
  a total function: date strings that fail to parse (which would yield `NaN`
  and make the comparator inconsistent, leaving the sort order
  implementation-defined per ECMAScript) are outside the model.  The `Task`
  type documents `due` as ISO `yyyy-mm-dd`.
- `JSON.parse` / `JSON.stringify` are modelled structurally: an import file is
  either malformed, a non-array value, or an array of `RawRecord`s; export
  serialises every task into a `RawRecord`.
-/

namespace TaskApp

/-- `Priority` enumeration from `App.jsx`. -/
inductive Priority where
  | Low
  | Normal
  | High
  | Urgent
deriving DecidableEq, Repr

/-- `Status` enumeration from `App.jsx` (`"In Progress"` is `InProgress`). -/
inductive Status where
  | Todo
  | InProgress
  | Done
deriving DecidableEq, Repr

/-- The `Task` record from `App.jsx`.  `notes` is modelled as `String`: every
task constructed by the application's operations carries a string `notes`
(`input.notes || ""` on create, `String(...)`/`""` on import). -/
structure Task where
  id : String
  title : String
  notes : String
  priority : Priority
  status : Status
  due : Option String
  createdAt : String
  updatedAt : String
deriving DecidableEq, Repr

/-- `PRIORITY_ORDER` from `App.jsx`. -/
def PRIORITY_ORDER : Priority → Int
  | .Low => 0
  | .Normal => 1
  | .High => 2
  | .Urgent => 3

/-- `STATUS_ORDER` from `App.jsx`. -/
def STATUS_ORDER : Status → Int
  | .Todo => 0
  | .InProgress => 1
  | .Done => 2

/-- JavaScript truthiness of an optional string value: `undefined` and `""`
are falsy. -/
def truthy : Option String → Bool
  | some s => s ≠ ""
  | none => false

/-- JavaScript `a || d` for an optional string `a`: the default is taken when
`a` is absent or the empty string. -/
def jsOr (v : Option String) (d : String) : String :=
  match v with
  | some s => if s = "" then d else s
  | none => d

/-- JavaScript `String.prototype.trim` (whitespace stripped from both ends),
defined structurally on the character list. -/
def jsTrim (s : String) : String :=
  ⟨((s.data.dropWhile Char.isWhitespace).reverse.dropWhile Char.isWhitespace).reverse⟩

/-- JavaScript `String.prototype.toLowerCase`, restricted to the ASCII case
mapping of `Char.toLower`. -/
def jsToLower (s : String) : String :=
  ⟨s.data.map Char.toLower⟩

/-- Substring search on character lists (one candidate start position per
suffix), the model of `String.prototype.includes`. -/
def includesAux (q : List Char) : List Char → Bool
  | [] => q.isPrefixOf ([] : List Char)
  | c :: rest => q.isPrefixOf (c :: rest) || includesAux q rest

/-- JavaScript `s.includes(q)`. -/
def strIncludes (s q : String) : Bool :=
  includesAux q.data s.data

/-- Sort keys of the `sortBy` select in `App.jsx`. -/
inductive SortKey where
  | priority
  | due
  | created
  | status
deriving DecidableEq, Repr

/-- Sort directions of the `sortDir` select in `App.jsx`. -/
inductive SortDir where
  | asc
  | desc
deriving DecidableEq, Repr

/-- The UI state feeding the query pipeline in `App.jsx`.  The priority and
status filters are `"All"` (modelled `none`) or one enumeration value. -/
structure AppState where
  tasks : List Task
  q : String
  priorityFilter : Option Priority
  statusFilter : Option Status
  sortBy : SortKey
  sortDir : SortDir

/-- Text-filter predicate from `filtered` in `App.jsx`:
`q.trim() ? (t.title + " " + (t.notes || "")).toLowerCase().includes(q.toLowerCase()) : true`.
Since `notes` is a string in the model, `t.notes || ""` equals `t.notes`. -/
def matchesText (q : String) (t : Task) : Bool :=
  if jsTrim q ≠ "" then
    strIncludes (jsToLower (t.title ++ " " ++ t.notes)) (jsToLower q)
  else
    true

/-- The `filtered` memo from `App.jsx`: three `.filter` passes. -/
def filtered (s : AppState) : List Task :=
  ((s.tasks.filter (fun t => matchesText s.q t)).filter
      (fun t => match s.priorityFilter with
        | none => true
        | some p => t.priority == p)).filter
    (fun t => match s.statusFilter with
      | none => true
      | some st => t.status == st)

/-- JavaScript numbers as they occur in the sort comparator of `App.jsx`. -/
inductive JSNum where
  | nan
  | posInf
  | negInf
  | num (n : Int)
deriving DecidableEq, Repr

/-- IEEE subtraction on `JSNum` (`Infinity - Infinity = NaN`, etc.). -/
def JSNum.sub : JSNum → JSNum → JSNum
  | .nan, _ => .nan
  | _, .nan => .nan
  | .posInf, .posInf => .nan
  | .posInf, _ => .posInf
  | .negInf, .negInf => .nan
  | .negInf, _ => .negInf
  | .num _, .posInf => .negInf
  | .num _, .negInf => .posInf
  | .num a, .num b => .num (a - b)

/-- IEEE negation on `JSNum` (the `-cmp` of the descending branch). -/
def JSNum.negate : JSNum → JSNum
  | .nan => .nan
  | .posInf => .negInf
  | .negInf => .posInf
  | .num n => .num (-n)

/-- The value ECMAScript `SortCompare` extracts from a comparator result:
`NaN` is treated as `+0`; only the sign matters. -/
def jsCompareValue : JSNum → Int
  | .nan => 0
  | .posInf => 1
  | .negInf => -1
  | .num n => n

/-- `a.due ? new Date(a.due).getTime() : Infinity` from the `due` branch of the
comparator (an empty-string `due` is falsy). -/
def dueTime (dateVal : String → Int) (t : Task) : JSNum :=
  match t.due with
  | some s => if s = "" then .posInf else .num (dateVal s)
  | none => .posInf

/-- The comparator body of `arr.sort((a, b) => ...)` in the `sorted` memo of
`App.jsx`, before the direction is applied. -/
def taskCmp (dateVal : String → Int) (key : SortKey) (a b : Task) : JSNum :=
  match key with
  | .priority => .num (PRIORITY_ORDER a.priority - PRIORITY_ORDER b.priority)
  | .due => JSNum.sub (dueTime dateVal a) (dueTime dateVal b)
  | .created => .num (dateVal a.createdAt - dateVal b.createdAt)
  | .status => .num (STATUS_ORDER a.status - STATUS_ORDER b.status)

/-- `return sortDir === "asc" ? cmp : -cmp`. -/
def dirCmp (dateVal : String → Int) (key : SortKey) (dir : SortDir) (a b : Task) : JSNum :=
  match dir with
  | .asc => taskCmp dateVal key a b
  | .desc => (taskCmp dateVal key a b).negate

/-- The boolean "not after" relation induced by the comparator, used to run the
stable sort: `a` may stay before `b` iff `SortCompare(cmp a b) ≤ 0`. -/
def sortLe (dateVal : String → Int) (key : SortKey) (dir : SortDir) (a b : Task) : Bool :=
  jsCompareValue (dirCmp dateVal key dir a b) ≤ 0

/-- The `sorted` memo from `App.jsx`: a stable sort of `filtered` by the
selected comparator. -/
def sorted (dateVal : String → Int) (s : AppState) : List Task :=
  List.mergeSort (filtered s) (sortLe dateVal s.sortBy s.sortDir)

/-- The record returned by the `stats` memo. -/
structure Stats where
  total : Nat
  done : Nat
  high : Nat
deriving DecidableEq, Repr

/-- The `stats` memo from `App.jsx`; it reads only `tasks`, never the
filters. -/
def stats (s : AppState) : Stats :=
  { total := s.tasks.length
  , done := (s.tasks.filter (fun t => t.status == Status.Done)).length
  , high := (s.tasks.filter (fun t =>
      t.priority == Priority.High || t.priority == Priority.Urgent)).length }

/-- The `Partial<Task>` input of `upsertTask` (fields possibly `undefined`). -/
structure TaskInput where
  title : Option String
  notes : Option String
  priority : Option Priority
  status : Option Status
  due : Option String
deriving DecidableEq, Repr

/-- `upsertTask` from `App.jsx`.  `editing` is the task being edited (if any),
`newId` stands for the generated `uid()`, `now` for `new Date().toISOString()`.
In the create branch, `(input.priority as Priority) || "Normal"` can only fall
back when the field is `undefined` (priority strings are non-empty), hence
`Option.getD`; likewise for `status`. -/
def upsertTask (editing : Option Task) (input : TaskInput) (newId now : String)
    (tasks : List Task) : List Task :=
  match editing with
  | some e =>
    tasks.map (fun t =>
      if t.id = e.id then
        { t with
          title := input.title.getD t.title
          notes := input.notes.getD t.notes
          priority := input.priority.getD t.priority
          status := input.status.getD t.status
          due := match input.due with
            | none => t.due
            | some d => if d = "" then none else some d
          updatedAt := now }
      else t)
  | none =>
    { id := newId
    , title := jsTrim (jsOr input.title "Untitled")
    , notes := jsOr input.notes ""
    , priority := input.priority.getD Priority.Normal
    , status := input.status.getD Status.Todo
    , due := match input.due with
        | none => none
        | some d => if d = "" then none else some d
    , createdAt := now
    , updatedAt := now } :: tasks

/-- `toggleDone` from `App.jsx` (local branch): flip matching tasks between
`Done` and `Todo` and stamp `updatedAt`. -/
def toggleDone (id now : String) (tasks : List Task) : List Task :=
  tasks.map (fun t =>
    if t.id = id then
      { t with
        status := if t.status = Status.Done then Status.Todo else Status.Done
        updatedAt := now }
    else t)

/-- A task-like record of a JSON import file, every field possibly absent.
Non-object array entries (rejected by the `d &&` guard in the source) are not
representable; the guard is vacuous in this model. -/
structure RawRecord where
  id : Option String
  title : Option String
  notes : Option String
  priority : Option String
  status : Option String
  due : Option String
  createdAt : Option String
  updatedAt : Option String
deriving DecidableEq, Repr

/-- `['Low','Normal','High','Urgent'].includes(d.priority) ? d.priority : 'Normal'`,
parsed into the enumeration. -/
def priorityFromRaw (v : Option String) : Priority :=
  match v with
  | some "Low" => .Low
  | some "Normal" => .Normal
  | some "High" => .High
  | some "Urgent" => .Urgent
  | _ => .Normal

/-- `['Todo','In Progress','Done'].includes(d.status) ? d.status : 'Todo'`,
parsed into the enumeration. -/
def statusFromRaw (v : Option String) : Status :=
  match v with
  | some "Todo" => .Todo
  | some "In Progress" => .InProgress
  | some "Done" => .Done
  | _ => .Todo

/-- The `.map` body of `importJSON` in `App.jsx`, normalising one accepted
record at import time `now`. -/
def cleanRecord (now : String) (d : RawRecord) : Task :=
  { id := d.id.getD ""
  , title := d.title.getD ""
  , notes := if truthy d.notes then d.notes.getD "" else ""
  , priority := priorityFromRaw d.priority
  , status := statusFromRaw d.status
  , due := if truthy d.due then d.due else none
  , createdAt := if truthy d.createdAt then d.createdAt.getD "" else now
  , updatedAt := now }

/-- The parse result of an import file: `JSON.parse` threw, parsed to a
non-array value, or parsed to an array of records. -/
inductive ImportFile where
  | malformed
  | nonArray
  | array (records : List RawRecord)
deriving DecidableEq, Repr

/-- `importJSON` from `App.jsx`: a malformed or non-array file throws and is
caught (collection untouched); an array is filtered on truthy `id` and
`title`, normalised, and replaces the collection via `setTasks(clean)`. -/
def importJSON (now : String) (file : ImportFile) (tasks : List Task) : List Task :=
  match file with
  | .array data =>
    (data.filter (fun d => truthy d.id && truthy d.title)).map (cleanRecord now)
  | _ => tasks

/-- The string of a `Priority`, as serialised by `JSON.stringify`. -/
def priorityStr : Priority → String
  | .Low => "Low"
  | .Normal => "Normal"
  | .High => "High"
  | .Urgent => "Urgent"

/-- The string of a `Status`, as serialised by `JSON.stringify`. -/
def statusStr : Status → String
  | .Todo => "Todo"
  | .InProgress => "In Progress"
  | .Done => "Done"

/-- `JSON.stringify` of one task, as produced by `exportJSON`: every present
field serialises to its string; an absent `due` is omitted. -/
def taskToRecord (t : Task) : RawRecord :=
  { id := some t.id
  , title := some t.title
  , notes := some t.notes
  , priority := some (priorityStr t.priority)
  , status := some (statusStr t.status)
  , due := t.due
  , createdAt := some t.createdAt
  , updatedAt := some t.updatedAt }

/-- `exportJSON` from `App.jsx`: the full, unfiltered collection serialised as
a JSON array. -/
def exportJSON (tasks : List Task) : ImportFile :=
  .array (tasks.map taskToRecord)

/-- A Firestore document payload as written by the cloud helpers: a bag of
optional string fields (only the timestamp fields matter to the claims). -/
structure CloudDoc where
  title : Option String
  notes : Option String
  priority : Option String
  status : Option String
  due : Option String
  createdAt : Option String
  updatedAt : Option String
deriving DecidableEq, Repr

/-- `createTask` from `hooks/useTasks.js`: requires a truthy `uid`, then writes
`{ ...task, createdAt: now, updatedAt: now }` (caller-supplied timestamps are
overridden by the spread order).  The `.ok` value is the written document. -/
def createTask (uid : Option String) (task : CloudDoc) (now : String) :
    Except String CloudDoc :=
  if truthy uid = false then Except.error "createTask: uid required"
  else Except.ok { task with createdAt := some now, updatedAt := some now }

/-- `updateTask` from `hooks/useTasks.js`: requires a truthy `uid`, then merges
`{ ...updates, updatedAt: now }`.  The `.ok` value is the merged payload. -/
def updateTask (uid : Option String) (id : String) (updates : CloudDoc) (now : String) :
    Except String CloudDoc :=
  if truthy uid = false then Except.error "updateTask: uid required"
  else Except.ok { updates with updatedAt := some now }

/-- `deleteTaskCloud` from `hooks/useTasks.js`: requires a truthy `uid`, then
deletes the document with the given id. -/
def deleteTaskCloud (uid : Option String) (id : String) : Except String String :=
  if truthy uid = false then Except.error "deleteTaskCloud: uid required"
  else Except.ok id

/-! ### Auxiliary definitions for the proofs -/

/-- The per-key sort value of one task (each comparator branch subtracts the
two values of this function). -/
def keyVal (dateVal : String → Int) (key : SortKey) (t : Task) : JSNum :=
  match key with
  | .priority => .num (PRIORITY_ORDER t.priority)
  | .due => dueTime dateVal t
  | .created => .num (dateVal t.createdAt)
  | .status => .num (STATUS_ORDER t.status)

/-- A date parser for concrete examples: every string parses to time `0`
(only the empty/non-empty distinction matters to the examples). -/
def dvZero : String → Int := fun _ => 0

/-- A base task for the concrete examples. -/
def baseTask : Task :=
  { id := "T0", title := "task", notes := "", priority := .Normal, status := .Todo
  , due := none, createdAt := "2024-01-01T00:00:00Z", updatedAt := "2024-01-01T00:00:00Z" }

/-- Concrete example: a task with a non-empty due date. -/
def c1TaskA : Task := { baseTask with id := "A", due := some "2024-01-02" }

/-- Concrete example: a task with no due date. -/
def c1TaskB : Task := { baseTask with id := "B", due := none }

/-- Concrete example: sort by `due`, direction descending, no filters. -/
def c1State : AppState :=
  { tasks := [c1TaskA, c1TaskB], q := "", priorityFilter := none, statusFilter := none
  , sortBy := .due, sortDir := .desc }

/-- The same collection sorted by `due` ascending. -/
def c1wState : AppState := { c1State with sortDir := .asc }

/-- Concrete example: a task whose status is `In Progress`. -/
def c2Task : Task := { baseTask with id := "P", status := .InProgress }

/-- Concrete example: a `Todo` task for the toggle witness. -/
def c2wTask : Task := { baseTask with id := "W", status := .Todo }

/-- Concrete example: an import record carrying an empty-string `due` and
`createdAt` and an invalid priority. -/
def c4Rec : RawRecord :=
  { id := some "x", title := some "A", notes := none, priority := some "Bogus"
  , status := none, due := some "", createdAt := some "", updatedAt := none }

/-- Concrete example: the import record of the spec scenario
`[{"id":"x","title":"A","priority":"Bogus"}]`. -/
def c4wRec : RawRecord :=
  { id := some "x", title := some "A", notes := none, priority := some "Bogus"
  , status := none, due := none, createdAt := none, updatedAt := none }

/-- Concrete example: a collection for the malformed-import witness. -/
def c5Task : Task := { baseTask with id := "K" }

/-- Concrete example: a task with an empty title (producible by `upsertTask`
from a whitespace-only input title). -/
def c6Task : Task :=
  { id := "A", title := "", notes := "n", priority := .Normal, status := .Todo
  , due := none, createdAt := "c", updatedAt := "u" }

/-- Concrete example: a fully well-formed task for the round-trip witness. -/
def c6wTask : Task :=
  { id := "B", title := "Report", notes := "", priority := .High, status := .Done
  , due := some "2024-05-01", createdAt := "c1", updatedAt := "u1" }

/-- Concrete example: a task whose title/notes concatenate to `"ab"` without
the space separator. -/
def c7Task : Task :=
  { id := "C", title := "a", notes := "b", priority := .Normal, status := .Todo
  , due := none, createdAt := "c", updatedAt := "u" }

/-- Concrete example: querying `"ab"` over `c7Task`. -/
def c7State : AppState :=
  { tasks := [c7Task], q := "ab", priorityFilter := none, statusFilter := none
  , sortBy := .priority, sortDir := .desc }

/-- Concrete example: a cloud document carrying caller-supplied timestamps. -/
def c8Doc : CloudDoc :=
  { title := some "T", notes := none, priority := none, status := none
  , due := none, createdAt := some "OLD", updatedAt := some "OLD" }

/-- Concrete example tasks with priorities [Low, Urgent, Normal, Urgent]. -/
def c9TaskL : Task := { baseTask with id := "L", priority := .Low }

/-- Second task of the stability scenario (first `Urgent`). -/
def c9TaskU1 : Task := { baseTask with id := "U1", priority := .Urgent }

/-- Third task of the stability scenario. -/
def c9TaskN : Task := { baseTask with id := "N", priority := .Normal }

/-- Fourth task of the stability scenario (second `Urgent`). -/
def c9TaskU2 : Task := { baseTask with id := "U2", priority := .Urgent }

/-- Concrete example: sort by `priority` descending, no filters. -/
def c9State : AppState :=
  { tasks := [c9TaskL, c9TaskU1, c9TaskN, c9TaskU2], q := "", priorityFilter := none
  , statusFilter := none, sortBy := .priority, sortDir := .desc }

/-- Concrete example: a create input whose title has surrounding whitespace. -/
def c10Input : TaskInput :=
  { title := some "  Report  ", notes := none, priority := none, status := none, due := none }

/-- Concrete example: a create input with no title. -/
def c10InputNone : TaskInput :=
  { title := none, notes := none, priority := none, status := none, due := none }

/-! ### Helper lemmas -/

theorem taskCmp_eq_sub (dv : String → Int) (k : SortKey) (a b : Task) :
    taskCmp dv k a b = JSNum.sub (keyVal dv k a) (keyVal dv k b) := by
  cases k <;> simp [taskCmp, keyVal, JSNum.sub]

theorem keyVal_isVal (dv : String → Int) (k : SortKey) (t : Task) :
    keyVal dv k t = JSNum.posInf ∨ ∃ n, keyVal dv k t = JSNum.num n := by
  cases k <;> simp [keyVal, dueTime]
  rcases t.due with _ | s
  · simp
  · simp only []
    split <;> simp

/-- The relation run by the sort is total (one of the two comparator results is
non-positive). -/
theorem sortLe_total (dv : String → Int) (k : SortKey) (d : SortDir) (a b : Task) :
    sortLe dv k d a b || sortLe dv k d b a := by
  rcases keyVal_isVal dv k a with hx | ⟨n, hx⟩ <;> rcases keyVal_isVal dv k b with hy | ⟨m, hy⟩ <;>
    cases d <;>
    simp_all [sortLe, dirCmp, taskCmp_eq_sub, JSNum.sub, JSNum.negate, jsCompareValue] <;>
    omega

/-- The relation run by the sort is transitive (the comparator is a consistent
total preorder once date parsing is total). -/
theorem sortLe_trans (dv : String → Int) (k : SortKey) (d : SortDir) (a b c : Task)
    (h1 : sortLe dv k d a b) (h2 : sortLe dv k d b c) : sortLe dv k d a c := by
  rcases keyVal_isVal dv k a with hx | ⟨n, hx⟩ <;> rcases keyVal_isVal dv k b with hy | ⟨m, hy⟩ <;>
    rcases keyVal_isVal dv k c with hz | ⟨p, hz⟩ <;> cases d <;>
    simp_all [sortLe, dirCmp, taskCmp_eq_sub, JSNum.sub, JSNum.negate, jsCompareValue] <;>
    omega

/-- A falsy `due` yields the comparator value `Infinity`. -/
theorem dueTime_posInf_of_not_truthy (dv : String → Int) {t : Task}
    (h : truthy t.due = false) : dueTime dv t = JSNum.posInf := by
  rcases ht : t.due with _ | s <;> simp_all [truthy, dueTime]

/-- A truthy `due` yields a finite comparator value. -/
theorem dueTime_num_of_truthy (dv : String → Int) {t : Task}
    (h : truthy t.due = true) : ∃ n, dueTime dv t = JSNum.num n := by
  rcases ht : t.due with _ | s <;> simp_all [truthy, dueTime]

/-- Parsing the serialised priority string recovers the priority. -/
theorem priorityFromRaw_str (p : Priority) : priorityFromRaw (some (priorityStr p)) = p := by
  cases p <;> rfl

/-- Parsing the serialised status string recovers the status. -/
theorem statusFromRaw_str (st : Status) : statusFromRaw (some (statusStr st)) = st := by
  cases st <;> rfl

/-- Import of an exported task only re-stamps `updatedAt`, provided no field
falls into a falsy corner (empty id, title, createdAt, or empty-string due). -/
theorem cleanRecord_taskToRecord (now : String) (t : Task)
    (hid : t.id ≠ "") (hti : t.title ≠ "") (hca : t.createdAt ≠ "") (hdu : t.due ≠ some "") :
    cleanRecord now (taskToRecord t) = { t with updatedAt := now } := by
  rcases t with ⟨tid, ttitle, tnotes, tprio, tstatus, tdue, tca, tua⟩
  by_cases hn : tnotes = "" <;> rcases tdue with _ | s <;>
    simp_all [cleanRecord, taskToRecord, truthy, priorityFromRaw_str, statusFromRaw_str]

/-! ### Claim theorems -/

/-- C3: the statistics `total`, `done` and `highPriority` are the size of the
full collection, the count of `Done` tasks and the count of `High`/`Urgent`
tasks, and they are computed from the unfiltered collection: changing the text
query, the priority/status filters, or the sort settings leaves them
unchanged. -/
theorem c3_stats_counts (s : AppState) :
    (stats s).total = s.tasks.length
    ∧ (stats s).done = s.tasks.countP (fun t => t.status == Status.Done)
    ∧ (stats s).high =
        s.tasks.countP (fun t => t.priority == Priority.High || t.priority == Priority.Urgent)
    ∧ ∀ q' pf sf sb sd,
        stats { tasks := s.tasks, q := q', priorityFilter := pf, statusFilter := sf
              , sortBy := sb, sortDir := sd } = stats s := by
  refine ⟨rfl, ?_, ?_, ?_⟩
  · simp [stats, List.countP_eq_length_filter]
  · simp [stats, List.countP_eq_length_filter]
  · intro q' pf sf sb sd
    rfl

/-- C5: an import whose content is malformed or whose top-level shape is not an
array is rejected as a whole and leaves the prior collection completely
unchanged. -/
theorem c5_malformed_import_unchanged (now : String) (file : ImportFile) (tasks : List Task)
    (h : file = ImportFile.malformed ∨ file = ImportFile.nonArray) :
    importJSON now file tasks = tasks := by
  rcases h with h | h <;> subst h <;> rfl

/-- Witness for C5 at a concrete malformed file and collection. -/
theorem c5_malformed_import_unchanged_witness :
    importJSON "T" ImportFile.malformed [c5Task] = [c5Task] :=
  c5_malformed_import_unchanged "T" ImportFile.malformed [c5Task] (Or.inl rfl)

/-- C8: every cloud write (create, update, delete) fails with the
invalid-identity error and performs no write when the identity is absent or
empty; an accepted create stamps `createdAt` and `updatedAt`, and an accepted
update stamps `updatedAt`, with `now`, overriding any caller-supplied
timestamps in `task`/`updates`. -/
theorem c8_cloud_write_identity (uid : Option String) (task updates : CloudDoc)
    (id now : String) :
    (truthy uid = false →
      createTask uid task now = Except.error "createTask: uid required"
      ∧ updateTask uid id updates now = Except.error "updateTask: uid required"
      ∧ deleteTaskCloud uid id = Except.error "deleteTaskCloud: uid required")
    ∧ (truthy uid = true →
      createTask uid task now
        = Except.ok { task with createdAt := some now, updatedAt := some now }
      ∧ updateTask uid id updates now
        = Except.ok { updates with updatedAt := some now }) := by
  constructor <;> intro h <;>
    simp [createTask, updateTask, deleteTaskCloud, h]

/-- Witness for C8: an empty identity is rejected; an accepted create replaces
the caller-supplied timestamps. -/
theorem c8_cloud_write_identity_witness :
    createTask (some "") c8Doc "N" = Except.error "createTask: uid required"
    ∧ createTask (some "u1") c8Doc "N"
        = Except.ok { c8Doc with createdAt := some "N", updatedAt := some "N" } :=
  ⟨((c8_cloud_write_identity (some "") c8Doc c8Doc "x" "N").1 (by decide)).1,
   ((c8_cloud_write_identity (some "u1") c8Doc c8Doc "x" "N").2 (by decide)).1⟩

/-- C10: on create (no task being edited) the stored title is the trimmed
provided title when the provided title is a non-empty string, and `"Untitled"`
when it is absent or the empty string; a whitespace-only provided title is
stored as the empty string because trimming happens after the default
substitution. -/
theorem c10_create_title (input : TaskInput) (newId now : String) (tasks : List Task) :
    ((input.title = none ∨ input.title = some "") →
      (upsertTask none input newId now tasks).head?.map (fun t => t.title) = some "Untitled")
    ∧ (∀ s, input.title = some s → s ≠ "" →
      (upsertTask none input newId now tasks).head?.map (fun t => t.title) = some (jsTrim s))
    ∧ (∀ s, input.title = some s → s ≠ "" → jsTrim s = "" →
      (upsertTask none input newId now tasks).head?.map (fun t => t.title) = some "") := by
  refine ⟨?_, ?_, ?_⟩
  · intro h
    rcases h with h | h <;>
      simp [upsertTask, jsOr, h, show jsTrim "Untitled" = "Untitled" from by decide]
  · intro s hs hne
    simp [upsertTask, jsOr, hs, hne]
  · intro s hs hne htrim
    simp [upsertTask, jsOr, hs, hne, htrim]

/-- Witness for C10: a whitespace-padded title is trimmed; a missing title
becomes `"Untitled"`. -/
theorem c10_create_title_witness :
    (upsertTask none c10Input "id1" "N" []).head?.map (fun t => t.title) = some "Report"
    ∧ (upsertTask none c10InputNone "id2" "N" []).head?.map (fun t => t.title)
        = some "Untitled" := by
  constructor
  · have h := (c10_create_title c10Input "id1" "N" []).2.1 "  Report  " rfl (by decide)
    rwa [show jsTrim "  Report  " = "Report" from by decide] at h
  · exact (c10_create_title c10InputNone "id2" "N" []).1 (Or.inl rfl)

/-- C1 counterexample: sorting by `due` in Descending direction places the
task without a due date *before* the task with a due date — the direction flip
negates the `Infinity` of the empty due, so empties are relocated to the
front, contrary to the claim. -/
theorem c1_empty_due_counterexample :
    c1TaskA.due = some "2024-01-02" ∧ c1TaskB.due = none
    ∧ c1State.sortBy = SortKey.due ∧ c1State.sortDir = SortDir.desc
    ∧ sorted dvZero c1State = [c1TaskB, c1TaskA] := by
  refine ⟨rfl, rfl, rfl, rfl, ?_⟩
  have h : filtered c1State = c1State.tasks := by decide
  simp only [sorted, h]
  simp [List.mergeSort, List.merge, List.splitInTwo, c1State, sortLe, dirCmp, taskCmp,
    dueTime, JSNum.negate, JSNum.sub, jsCompareValue, c1TaskA, c1TaskB, baseTask, dvZero]

/-- C1 (amended): when the sort key is `due`, tasks with a falsy (absent or
empty-string) due date compare as `Infinity`; consequently they appear after
every task with a non-empty due date when the direction is Ascending, and
before every such task when the direction is Descending. -/
theorem c1_empty_due_placement (dv : String → Int) (s : AppState)
    (hk : s.sortBy = SortKey.due) :
    (s.sortDir = SortDir.asc →
      (sorted dv s).Pairwise (fun a b => truthy a.due = false → truthy b.due = false))
    ∧ (s.sortDir = SortDir.desc →
      (sorted dv s).Pairwise (fun a b => truthy b.due = false → truthy a.due = false)) := by
  have hp : (sorted dv s).Pairwise (fun a b => sortLe dv s.sortBy s.sortDir a b = true) := by
    rw [sorted]
    exact List.sorted_mergeSort (sortLe_trans dv s.sortBy s.sortDir)
      (sortLe_total dv s.sortBy s.sortDir) (filtered s)
  constructor <;> intro hd <;> refine hp.imp ?_ <;> intro a b hle
  · intro hea
    by_contra hbne
    rw [Bool.not_eq_false] at hbne
    rw [hk, hd] at hle
    obtain ⟨m, hm⟩ := dueTime_num_of_truthy dv hbne
    have ha := dueTime_posInf_of_not_truthy dv hea
    simp [sortLe, dirCmp, taskCmp, ha, hm, JSNum.sub, jsCompareValue] at hle
  · intro heb
    by_contra hane
    rw [Bool.not_eq_false] at hane
    rw [hk, hd] at hle
    obtain ⟨m, hm⟩ := dueTime_num_of_truthy dv hane
    have hb := dueTime_posInf_of_not_truthy dv heb
    simp [sortLe, dirCmp, taskCmp, hm, hb, JSNum.sub, JSNum.negate, jsCompareValue] at hle

/-- Witness for the amended C1 at a concrete collection sorted by `due`
ascending. -/
theorem c1_empty_due_placement_witness :
    (sorted dvZero c1wState).Pairwise
      (fun a b => truthy a.due = false → truthy b.due = false) :=
  (c1_empty_due_placement dvZero c1wState rfl).1 rfl

/-- C9: the sort is stable — two tasks that compare equal under the selected
comparator (value `0` after the `SortCompare` treatment of `NaN`) and appear
in that order in the filtered input appear in the same order in the sorted
output, for every sort key and direction. -/
theorem c9_sort_stable (dv : String → Int) (s : AppState) (a b : Task)
    (hsub : List.Sublist [a, b] (filtered s))
    (tie : jsCompareValue (dirCmp dv s.sortBy s.sortDir a b) = 0) :
    List.Sublist [a, b] (sorted dv s) := by
  rw [sorted]
  apply List.pair_sublist_mergeSort (sortLe_trans dv s.sortBy s.sortDir)
    (sortLe_total dv s.sortBy s.sortDir) ?_ hsub
  simp [sortLe, tie]

/-- Witness for C9: the spec scenario — priorities [Low, Urgent, Normal,
Urgent] sorted by priority descending keep the two Urgent tasks in their
original relative order (and the full output is [Urgent, Urgent, Normal,
Low]). -/
theorem c9_sort_stable_witness :
    List.Sublist [c9TaskU1, c9TaskU2] (sorted dvZero c9State)
    ∧ sorted dvZero c9State = [c9TaskU1, c9TaskU2, c9TaskN, c9TaskL] := by
  constructor
  · exact c9_sort_stable dvZero c9State c9TaskU1 c9TaskU2 (by decide) (by decide)
  · have h : filtered c9State = c9State.tasks := by decide
    simp only [sorted, h]
    simp [List.mergeSort, List.merge, List.splitInTwo, c9State, sortLe, dirCmp, taskCmp,
      dueTime, JSNum.negate, JSNum.sub, jsCompareValue, c9TaskL, c9TaskU1, c9TaskN,
      c9TaskU2, baseTask, PRIORITY_ORDER, dvZero]

/-- C2 counterexample: toggling a task whose status is `In Progress` twice
leaves it at `Todo`, not at its original status. -/
theorem c2_toggle_counterexample :
    c2Task.status = Status.InProgress
    ∧ toggleDone "P" "t2" (toggleDone "P" "t1" [c2Task])
        = [{ c2Task with status := Status.Todo, updatedAt := "t2" }]
    ∧ Status.Todo ≠ Status.InProgress := by
  decide

/-- C2 (amended): toggling twice restores the original status (changing only
`updatedAt`) for every task whose status is not `In Progress`; a single
toggle sets a matching task's status to `Done` when it is not `Done`, and to
`Todo` when it is `Done`. -/
theorem c2_toggle_twice (tasks : List Task) (id n1 n2 : String)
    (h : ∀ t ∈ tasks, t.id = id → t.status ≠ Status.InProgress) :
    toggleDone id n2 (toggleDone id n1 tasks)
      = tasks.map (fun t => if t.id = id then { t with updatedAt := n2 } else t)
    ∧ ∀ t ∈ tasks, t.id = id →
        ((t.status ≠ Status.Done →
          { t with status := Status.Done, updatedAt := n1 } ∈ toggleDone id n1 tasks)
        ∧ (t.status = Status.Done →
          { t with status := Status.Todo, updatedAt := n1 } ∈ toggleDone id n1 tasks)) := by
  constructor
  · rw [toggleDone, toggleDone, List.map_map]
    apply List.map_congr_left
    intro t ht
    by_cases hid : t.id = id
    · have hst := h t ht hid
      rcases t with ⟨tid, ttitle, tnotes, tprio, tstatus, tdue, tca, tua⟩
      cases tstatus <;> simp_all
    · rcases t with ⟨tid, ttitle, tnotes, tprio, tstatus, tdue, tca, tua⟩
      simp_all
  · intro t ht hid
    have hmem : (if t.id = id then
        { t with
          status := if t.status = Status.Done then Status.Todo else Status.Done
          updatedAt := n1 }
      else t) ∈ toggleDone id n1 tasks := by
      rw [toggleDone]
      exact List.mem_map_of_mem _ ht
    rw [if_pos hid] at hmem
    constructor <;> intro hst
    · rwa [if_neg hst] at hmem
    · rwa [if_pos hst] at hmem

/-- Witness for the amended C2 at a concrete `Todo` task. -/
theorem c2_toggle_twice_witness :
    toggleDone "W" "t2" (toggleDone "W" "t1" [c2wTask])
      = [c2wTask].map (fun t => if t.id = "W" then { t with updatedAt := "t2" } else t) :=
  (c2_toggle_twice [c2wTask] "W" "t1" "t2" (by decide)).1

/-- C4 counterexample: a record with a present but empty-string `due` and
`createdAt` is accepted, but its `due` is omitted (not preserved) and its
`createdAt` is replaced by the import time (not preserved). -/
theorem c4_import_counterexample :
    c4Rec.due = some "" ∧ c4Rec.createdAt = some ""
    ∧ importJSON "NOW" (ImportFile.array [c4Rec]) []
        = [{ id := "x", title := "A", notes := "", priority := Priority.Normal
           , status := Status.Todo, due := none, createdAt := "NOW", updatedAt := "NOW" }] := by
  decide

/-- C4 (amended): a record is accepted exactly when its `id` and `title` are
present and non-empty; in an accepted record, `priority` falls back to
`Normal` and `status` to `Todo` when absent or invalid (an invalid priority is
normalised, not rejected), valid values are preserved, `notes` defaults to the
empty string, `due` is preserved when present and non-empty and omitted
otherwise, `createdAt` is preserved when present and non-empty and otherwise
set to the import time, and `updatedAt` is always the import time. -/
theorem c4_import_normalization (now : String) (d : RawRecord) (old : List Task) :
    (truthy d.id = true → truthy d.title = true →
      importJSON now (ImportFile.array [d]) old = [cleanRecord now d])
    ∧ ((truthy d.id = false ∨ truthy d.title = false) →
      importJSON now (ImportFile.array [d]) old = [])
    ∧ (∀ s, d.id = some s → (cleanRecord now d).id = s)
    ∧ (∀ s, d.title = some s → (cleanRecord now d).title = s)
    ∧ (d.priority ∉ [some "Low", some "Normal", some "High", some "Urgent"] →
      (cleanRecord now d).priority = Priority.Normal)
    ∧ (∀ p : Priority, d.priority = some (priorityStr p) → (cleanRecord now d).priority = p)
    ∧ (d.status ∉ [some "Todo", some "In Progress", some "Done"] →
      (cleanRecord now d).status = Status.Todo)
    ∧ (∀ st : Status, d.status = some (statusStr st) → (cleanRecord now d).status = st)
    ∧ (d.notes = none → (cleanRecord now d).notes = "")
    ∧ (∀ s, d.due = some s → s ≠ "" → (cleanRecord now d).due = some s)
    ∧ ((d.due = none ∨ d.due = some "") → (cleanRecord now d).due = none)
    ∧ (∀ s, d.createdAt = some s → s ≠ "" → (cleanRecord now d).createdAt = s)
    ∧ ((d.createdAt = none ∨ d.createdAt = some "") → (cleanRecord now d).createdAt = now)
    ∧ (cleanRecord now d).updatedAt = now := by
  refine ⟨?_, ?_, ?_, ?_, ?_, ?_, ?_, ?_, ?_, ?_, ?_, ?_, ?_, rfl⟩
  · intro h1 h2
    simp [importJSON, h1, h2]
  · intro h
    rcases h with h | h <;> simp [importJSON, h]
  · intro s hs
    simp [cleanRecord, hs]
  · intro s hs
    simp [cleanRecord, hs]
  · intro h
    rcases hd : d.priority with _ | s
    · simp [cleanRecord, priorityFromRaw, hd]
    · rw [hd] at h
      simp only [List.mem_cons, List.mem_singleton, Option.some.injEq] at h
      push_neg at h
      obtain ⟨h1, h2, h3, h4⟩ := h
      simp only [cleanRecord, priorityFromRaw, hd]
      split <;> simp_all
  · intro p hp
    simp [cleanRecord, hp, priorityFromRaw_str]
  · intro h
    rcases hd : d.status with _ | s
    · simp [cleanRecord, statusFromRaw, hd]
    · rw [hd] at h
      simp only [List.mem_cons, List.mem_singleton, Option.some.injEq] at h
      push_neg at h
      obtain ⟨h1, h2, h3⟩ := h
      simp only [cleanRecord, statusFromRaw, hd]
      split <;> simp_all
  · intro st hst
    simp [cleanRecord, hst, statusFromRaw_str]
  · intro hn
    simp [cleanRecord, hn, truthy]
  · intro s hs hne
    simp [cleanRecord, hs, truthy, hne]
  · intro h
    rcases h with h | h <;> simp [cleanRecord, h, truthy]
  · intro s hs hne
    simp [cleanRecord, hs, truthy, hne]
  · intro h
    rcases h with h | h <;> simp [cleanRecord, h, truthy]

/-- Witness for the amended C4 at the spec scenario
`[{"id":"x","title":"A","priority":"Bogus"}]`: the record is accepted and its
priority is normalised to `Normal`. -/
theorem c4_import_normalization_witness :
    importJSON "T0" (ImportFile.array [c4wRec]) [] = [cleanRecord "T0" c4wRec]
    ∧ (cleanRecord "T0" c4wRec).priority = Priority.Normal := by
  obtain ⟨h1, _, _, _, h5, _⟩ := c4_import_normalization "T0" c4wRec []
  exact ⟨h1 (by decide) (by decide), h5 (by decide)⟩

/-- C6 counterexample: a collection containing a task with an empty title
(producible by the create operation from a whitespace-only title) does not
survive an export/import round trip — the record is rejected at import and the
resulting collection is empty. -/
theorem c6_roundtrip_counterexample :
    c6Task.title = "" ∧ ([c6Task] : List Task) ≠ []
    ∧ importJSON "NOW" (exportJSON [c6Task]) [c6Task] = [] := by
  decide

/-- C6 (amended): for every collection whose tasks all have non-empty `id`,
`title` and `createdAt` and no empty-string `due`, exporting and then
importing that exact file yields the same collection with every field
preserved except `updatedAt`, which is reset to the import time. -/
theorem c6_export_import_roundtrip (now : String) (tasks : List Task)
    (h : ∀ t ∈ tasks, t.id ≠ "" ∧ t.title ≠ "" ∧ t.createdAt ≠ "" ∧ t.due ≠ some "") :
    importJSON now (exportJSON tasks) tasks
      = tasks.map (fun t => { t with updatedAt := now }) := by
  induction tasks with
  | nil => rfl
  | cons t ts ih =>
    obtain ⟨⟨hid, hti, hca, hdu⟩, hrest⟩ := List.forall_mem_cons.mp h
    have ihx := ih hrest
    have hkeep : (truthy (taskToRecord t).id && truthy (taskToRecord t).title) = true := by
      simp [taskToRecord, truthy, hid, hti]
    simp only [importJSON, exportJSON, List.map_cons, List.filter_cons] at ihx ⊢
    simp only [hkeep, if_true, List.map_cons,
      cleanRecord_taskToRecord now t hid hti hca hdu, ihx]

/-- Witness for the amended C6 at a concrete well-formed task. -/
theorem c6_export_import_roundtrip_witness :
    importJSON "NOW2" (exportJSON [c6wTask]) [c6wTask]
      = [c6wTask].map (fun t => { t with updatedAt := "NOW2" }) :=
  c6_export_import_roundtrip "NOW2" [c6wTask] (by decide)

/-- C7 counterexample: the query `"ab"` is a substring of the plain
concatenation of title `"a"` and notes `"b"`, yet the task does not pass the
filter — the code matches against title, a space, and notes. -/
theorem c7_text_filter_counterexample :
    c7Task.title = "a" ∧ c7Task.notes = "b" ∧ c7State.q = "ab"
    ∧ strIncludes (jsToLower (c7Task.title ++ c7Task.notes)) (jsToLower c7State.q) = true
    ∧ filtered c7State = [] := by
  decide

/-- C7 (amended): a task passes the filter stage exactly when all three
predicates hold: the trimmed query is empty or a case-insensitive substring of
the concatenation of `title`, a single space, and `notes`; the priority filter
is All or equals the task's priority; and the status filter is All or equals
the task's status. -/
theorem c7_filter_conjunction (s : AppState) (t : Task) :
    t ∈ filtered s ↔
      t ∈ s.tasks
      ∧ (jsTrim s.q = "" ∨
          strIncludes (jsToLower (t.title ++ " " ++ t.notes)) (jsToLower s.q) = true)
      ∧ (s.priorityFilter = none ∨ ∃ p, s.priorityFilter = some p ∧ t.priority = p)
      ∧ (s.statusFilter = none ∨ ∃ st, s.statusFilter = some st ∧ t.status = st) := by
  rcases hpf : s.priorityFilter with _ | p <;> rcases hsf : s.statusFilter with _ | st <;>
    by_cases hq : jsTrim s.q = "" <;>
    simp [filtered, List.mem_filter, matchesText, hpf, hsf, hq, beq_iff_eq, and_assoc] <;>
    intro _ <;> tauto

end TaskApp
